import Mathlib

/-!
Verification of the inventory-browsing view (home.tsx) and its product
service facade. Strings are modelled as lists of characters; JS string
operations used by the code (toLowerCase, includes, slice) are embedded
as executable functions on those lists.
-/

/-- JS strings, modelled as lists of characters. -/
abbrev Str := List Char

/-- Charwise lowering, as in JS toLowerCase for the ASCII letters the
data uses (Char.toLower maps A-Z to a-z and fixes everything else). -/
def strToLower (s : Str) : Str := s.map Char.toLower

/-- headMatches needle hay: needle occurs at the very start of hay. -/
def headMatches : Str → Str → Bool
  | [], _ => true
  | _ :: _, [] => false
  | a :: as, b :: bs => a == b && headMatches as bs

/-- JS hay.includes(needle): needle occurs somewhere in hay. -/
def jsIncludes (needle : Str) : Str → Bool
  | [] => needle.isEmpty
  | c :: t => headMatches needle (c :: t) || jsIncludes needle t

/-- A product record, as declared in the service module. -/
structure Product where
  id : Str
  name : Str
  sku : Str
  category : Str
  stock : Nat
deriving DecidableEq, Repr

/-- filteredProducts from home.tsx: products whose name, lowered,
includes the lowered search query. -/
def filteredProducts (products : List Product) (searchQuery : Str) : List Product :=
  products.filter (fun p => jsIncludes (strToLower searchQuery) (strToLower p.name))

/-- The spec-side predicate: the name contains the search string as a
case-insensitive substring. -/
def containsCI (name s : Str) : Prop :=
  ∃ pre post, strToLower name = pre ++ strToLower s ++ post

theorem headMatches_iff (needle hay : Str) :
    headMatches needle hay = true ↔ ∃ post, hay = needle ++ post := by
  induction needle generalizing hay with
  | nil => simp [headMatches]
  | cons a as ih =>
    cases hay with
    | nil => simp [headMatches]
    | cons b bs =>
      simp only [headMatches, Bool.and_eq_true, beq_iff_eq, ih, List.cons_append,
        List.cons.injEq]
      constructor
      · rintro ⟨rfl, post, rfl⟩; exact ⟨post, rfl, rfl⟩
      · rintro ⟨post, rfl, rfl⟩; exact ⟨rfl, post, rfl⟩

theorem jsIncludes_iff (needle hay : Str) :
    jsIncludes needle hay = true ↔ ∃ pre post, hay = pre ++ needle ++ post := by
  induction hay with
  | nil =>
    simp only [jsIncludes, List.isEmpty_iff]
    constructor
    · rintro rfl; exact ⟨[], [], rfl⟩
    · rintro ⟨pre, post, h⟩
      rcases List.append_eq_nil.mp (List.append_eq_nil.mp h.symm).1 with ⟨_, h2⟩
      exact h2
  | cons c t ih =>
    simp only [jsIncludes, Bool.or_eq_true, headMatches_iff, ih]
    constructor
    · rintro (⟨post, hp⟩ | ⟨pre, post, rfl⟩)
      · exact ⟨[], post, by simpa using hp⟩
      · exact ⟨c :: pre, post, rfl⟩
    · rintro ⟨pre, post, h⟩
      cases pre with
      | nil => exact Or.inl ⟨post, by simpa using h⟩
      | cons x xs =>
        simp only [List.cons_append, List.cons.injEq] at h
        exact Or.inr ⟨xs, post, h.2⟩

instance (name s : Str) : Decidable (containsCI name s) :=
  decidable_of_iff (jsIncludes (strToLower s) (strToLower name) = true)
    (jsIncludes_iff (strToLower s) (strToLower name))

/-- The filtered list the spec describes: the subsequence of the
collection whose name contains the search text case-insensitively, in
the original order. -/
def specFilteredList (products : List Product) (s : Str) : List Product :=
  products.filter (fun p => decide (containsCI p.name s))

theorem jsIncludes_nil (hay : Str) : jsIncludes [] hay = true := by
  cases hay <;> simp [jsIncludes, headMatches]

/-- C1: for every collection and search string, the filtered list is
exactly the subsequence of the collection whose name contains the search
string as a case-insensitive substring, in the original order; the empty
search string returns the collection unchanged. -/
theorem filteredProducts_correct (ps : List Product) (s : Str) :
    filteredProducts ps s = specFilteredList ps s ∧ filteredProducts ps [] = ps := by
  constructor
  · unfold filteredProducts specFilteredList
    apply List.filter_congr
    intro p _
    rcases h : jsIncludes (strToLower s) (strToLower p.name) with _ | _
    · have : ¬ containsCI p.name s := fun hc =>
        by simp [(jsIncludes_iff (strToLower s) (strToLower p.name)).mpr hc] at h
      simp [this]
    · have : containsCI p.name s :=
        (jsIncludes_iff (strToLower s) (strToLower p.name)).mp h
      simp [this]
  · unfold filteredProducts
    have h : ∀ p ∈ ps, (jsIncludes (strToLower []) (strToLower p.name)) = true := by
      intro p _
      simpa [strToLower] using jsIncludes_nil (strToLower p.name)
    calc ps.filter (fun p => jsIncludes (strToLower []) (strToLower p.name))
        = ps.filter (fun _ => true) := List.filter_congr (fun p hp => by simp [h p hp])
      _ = ps := List.filter_true ps

/-- JS list.slice(start, stop) for 0 ≤ start ≤ stop: the elements at
indices start ≤ i < stop. -/
def jsSlice (l : List Product) (start stop : Nat) : List Product :=
  (l.take stop).drop start

/-- Items shown per page, from home.tsx. -/
def productsPerPage : Nat := 20

/-- currentProducts from home.tsx: the slice of the filtered list from
(currentPage - 1) * 20 to currentPage * 20. -/
def currentProducts (filtered : List Product) (currentPage : Nat) : List Product :=
  jsSlice filtered ((currentPage - 1) * productsPerPage) (currentPage * productsPerPage)

/-- C2: for every filtered list and page p ≥ 1, the page slice is the
contiguous window of length at most 20 starting at index (p-1)*20, and
page 1 of an empty filtered list is the empty slice. -/
theorem currentProducts_window (fp : List Product) (p : Nat) (hp : 1 ≤ p) :
    currentProducts fp p = (fp.drop ((p - 1) * 20)).take 20
      ∧ (currentProducts fp p).length ≤ 20
      ∧ currentProducts [] 1 = [] := by
  have hwin : currentProducts fp p = (fp.drop ((p - 1) * 20)).take 20 := by
    unfold currentProducts jsSlice productsPerPage
    rw [List.drop_take]
    congr 1
    omega
  refine ⟨hwin, ?_, rfl⟩
  rw [hwin]
  exact le_trans (List.length_take_le 20 _) (le_refl 20)

/-- Witness for C2 at a concrete input. -/
theorem currentProducts_window_witness :
    currentProducts [] 2 = ([] : List Product).take 20 ∧
      (currentProducts [] 2).length ≤ 20 ∧ currentProducts [] 1 = [] := by
  have h := currentProducts_window [] 2 (by decide)
  simpa using h

/-- totalPages from home.tsx: Math.ceil(filtered count / 20), with no
minimum applied (0 when the filtered count is 0). -/
def totalPages (filteredLen : Nat) : Nat := (filteredLen + 19) / 20

/-- The (totalPages or 1) substitution performed inside getPageButtons
(JS totalPages falls back to 1 when it is 0, the falsy case). -/
def pageButtonsTotal (tp : Nat) : Nat := if tp = 0 then 1 else tp

/-- The disabled condition of the Next button in home.tsx: the current
page equals the raw totalPages value. -/
def nextDisabled (currentPage tp : Nat) : Bool := currentPage == tp

/-- C3 counterexample: with an empty filtered list the code's total page
count is 0, not the claimed minimum of 1; the page buttons substitute 1
while the Next-disable condition keeps the raw 0, so on page 1 of an
empty list the Next button is not disabled — the two places do not use
the same count. -/
theorem totalPages_empty_counterexample :
    totalPages 0 = 0 ∧ totalPages 0 ≠ 1 ∧ pageButtonsTotal (totalPages 0) = 1 ∧
      nextDisabled 1 (totalPages 0) = false := by decide

/-- C3 amended: totalPages is the exact ceiling of count / 20 with no
minimum (0 when the count is 0); the page-button rendering substitutes
1 for 0; the Next-disable condition compares against the raw value, so
with an empty filtered list Next is not disabled on page 1. -/
theorem totalPages_correct (len : Nat) :
    (len ≤ 20 * totalPages len ∧ 20 * totalPages len < len + 20)
      ∧ pageButtonsTotal (totalPages len) = max 1 (totalPages len)
      ∧ nextDisabled 1 (totalPages 0) = false := by
  refine ⟨?_, ?_, by decide⟩
  · unfold totalPages
    omega
  · unfold pageButtonsTotal
    split <;> omega

/-- A rendered pagination item: a page number button or an ellipsis. -/
inductive PageItem where
  | page (n : Nat)
  | dots
deriving DecidableEq, Repr

/-- getPageButtons from home.tsx. The for loop from a to b inclusive is
rendered as List.range' a (b + 1 - a). -/
def getPageButtons (tp currentPage : Nat) : List PageItem :=
  let total := if tp = 0 then 1 else tp
  if total ≤ 5 then
    (List.range' 1 total).map PageItem.page
  else
    [PageItem.page 1]
      ++ (if 3 < currentPage then [PageItem.dots] else [])
      ++ (List.range' (max 2 (currentPage - 1))
            (min (total - 1) (currentPage + 1) + 1 - max 2 (currentPage - 1))).map PageItem.page
      ++ (if currentPage < total - 2 then [PageItem.dots] else [])
      ++ [PageItem.page total]

/-- The button sequence the spec describes, written from its words: all
pages 1..t when t ≤ 5; otherwise page 1, an ellipsis exactly when c > 3,
the pages from max(2, c-1) to min(t-1, c+1), an ellipsis exactly when
c < t-2, and page t. -/
def specPageButtons (t c : Nat) : List PageItem :=
  if t ≤ 5 then
    (List.range' 1 t).map PageItem.page
  else
    [PageItem.page 1]
      ++ (if 3 < c then [PageItem.dots] else [])
      ++ (List.range' (max 2 (c - 1)) (min (t - 1) (c + 1) + 1 - max 2 (c - 1))).map PageItem.page
      ++ (if c < t - 2 then [PageItem.dots] else [])
      ++ [PageItem.page t]

/-- C5: for every total page count t ≥ 1 and current page c in [1, t],
the rendered button sequence is exactly the one the spec describes, the
first and last pages always appear, and the three concrete examples of
the spec hold. -/
theorem getPageButtons_correct (t c : Nat) (h1 : 1 ≤ t) (h2 : 1 ≤ c) (h3 : c ≤ t) :
    getPageButtons t c = specPageButtons t c
      ∧ PageItem.page 1 ∈ getPageButtons t c
      ∧ PageItem.page t ∈ getPageButtons t c
      ∧ getPageButtons 3 2 = [PageItem.page 1, PageItem.page 2, PageItem.page 3]
      ∧ getPageButtons 10 1 = [PageItem.page 1, PageItem.page 2, PageItem.dots, PageItem.page 10]
      ∧ getPageButtons 10 5 = [PageItem.page 1, PageItem.dots, PageItem.page 4,
          PageItem.page 5, PageItem.page 6, PageItem.dots, PageItem.page 10] := by
  have htotal : (if t = 0 then 1 else t) = t := if_neg (by omega)
  have heq : getPageButtons t c = specPageButtons t c := by
    unfold getPageButtons specPageButtons
    rw [htotal]
  refine ⟨heq, ?_, ?_, by decide, by decide, by decide⟩
  · unfold getPageButtons
    rw [htotal]
    by_cases h5 : t ≤ 5
    · rw [if_pos h5]
      exact List.mem_map.mpr ⟨1, List.mem_range'_1.mpr ⟨le_refl 1, by omega⟩, rfl⟩
    · rw [if_neg h5]
      simp
  · unfold getPageButtons
    rw [htotal]
    by_cases h5 : t ≤ 5
    · rw [if_pos h5]
      exact List.mem_map.mpr ⟨t, List.mem_range'_1.mpr ⟨h1, by omega⟩, rfl⟩
    · rw [if_neg h5]
      simp

/-- Witness for C5 at a concrete input. -/
theorem getPageButtons_correct_witness :
    getPageButtons 10 5 = specPageButtons 10 5
      ∧ PageItem.page 1 ∈ getPageButtons 10 5
      ∧ PageItem.page 10 ∈ getPageButtons 10 5
      ∧ getPageButtons 3 2 = [PageItem.page 1, PageItem.page 2, PageItem.page 3]
      ∧ getPageButtons 10 1 = [PageItem.page 1, PageItem.page 2, PageItem.dots, PageItem.page 10]
      ∧ getPageButtons 10 5 = [PageItem.page 1, PageItem.dots, PageItem.page 4,
          PageItem.page 5, PageItem.page 6, PageItem.dots, PageItem.page 10] :=
  getPageButtons_correct 10 5 (by decide) (by decide) (by decide)

/-- The setProducts updater inside updateStock: map over the collection,
replacing the stock of any product whose id matches. -/
def updateStockList (products : List Product) (id : Str) (newStock : Nat) : List Product :=
  products.map (fun p => if p.id == id then { p with stock := newStock } else p)

/-- The success message template of updateStock:
Stock for "name" updated to newStock. -/
def successMsg (name : Str) (newStock : Nat) : Str :=
  ("Stock for \"").toList ++ name ++ ("\" updated to ").toList ++ (Nat.repr newStock).toList

/-- The name used in the success message: find the product by id in the
pre-update collection; a missing product, or a falsy (empty) name,
falls back to the literal "Product". -/
def productNameFor (products : List Product) (id : Str) : Str :=
  match products.find? (fun p => p.id == id) with
  | some p => if p.name = [] then ("Product").toList else p.name
  | none => ("Product").toList

/-- The view component state relevant to the edit workflow: the product
collection, the open modal target, the transient success message, the
fire times of the scheduled message clears, and the current time. -/
structure HomeState where
  products : List Product
  modalProduct : Option Product
  successMessage : Option Str
  pendingClears : List Nat
  now : Nat

/-- updateStock from home.tsx: optimistically update the matching
product's stock, set the success message (named from the pre-update
collection), schedule a clear 3 seconds later, and close the modal. -/
def updateStock (st : HomeState) (id : Str) (newStock : Nat) : HomeState :=
  { products := updateStockList st.products id newStock
    modalProduct := none
    successMessage := some (successMsg (productNameFor st.products id) newStock)
    pendingClears := st.pendingClears ++ [st.now + 3]
    now := st.now }

/-- C6: a valid stock edit for an id present in the collection rewrites
exactly the matching product's stock, keeps its id, name, sku and
category, leaves every other product untouched, and preserves the
collection's length and order (stated indexwise). -/
theorem updateStock_frame (st : HomeState) (id : Str) (ns : Nat)
    (hin : id ∈ st.products.map Product.id) :
    (updateStock st id ns).products.length = st.products.length
      ∧ ∀ i : Nat, (updateStock st id ns).products[i]? =
          (st.products[i]?).map (fun p =>
            if p.id = id then Product.mk p.id p.name p.sku p.category ns else p) := by
  constructor
  · unfold updateStock updateStockList
    simp
  · intro i
    unfold updateStock updateStockList
    simp only [List.getElem?_map]
    cases st.products[i]? with
    | none => rfl
    | some p =>
      simp only [Option.map_some']
      by_cases h : p.id = id
      · rw [if_pos (by exact beq_iff_eq.mpr h), if_pos h]
      · rw [if_neg (by simpa using h), if_neg h]

/-- Witness for C6 at a concrete one-product collection. -/
theorem updateStock_frame_witness :
    (updateStock
        { products := [Product.mk ("1").toList ("Widget").toList ("W1").toList ("Tools").toList 3]
          modalProduct := none
          successMessage := none
          pendingClears := []
          now := 0 } (("1").toList) 20).products.length =
      [Product.mk ("1").toList ("Widget").toList ("W1").toList ("Tools").toList 3].length
      ∧ ∀ i : Nat, (updateStock
          { products := [Product.mk ("1").toList ("Widget").toList ("W1").toList ("Tools").toList 3]
            modalProduct := none
            successMessage := none
            pendingClears := []
            now := 0 } (("1").toList) 20).products[i]? =
        ([Product.mk ("1").toList ("Widget").toList ("W1").toList ("Tools").toList 3][i]?).map
          (fun p => if p.id = ("1").toList
            then Product.mk p.id p.name p.sku p.category 20 else p) :=
  updateStock_frame
    { products := [Product.mk ("1").toList ("Widget").toList ("W1").toList ("Tools").toList 3]
      modalProduct := none
      successMessage := none
      pendingClears := []
      now := 0 } (("1").toList) 20 (by decide)

/-- C10: a stock edit whose id matches no product leaves every product
unchanged, still sets the success message with the fallback name
"Product", still schedules the 3-second clear, and closes the modal. -/
theorem updateStock_missing_id (st : HomeState) (id : Str) (ns : Nat)
    (habs : ∀ p ∈ st.products, p.id ≠ id) :
    (updateStock st id ns).products = st.products
      ∧ (updateStock st id ns).successMessage = some (successMsg (("Product").toList) ns)
      ∧ (updateStock st id ns).pendingClears = st.pendingClears ++ [st.now + 3]
      ∧ (updateStock st id ns).modalProduct = none := by
  have hfind : st.products.find? (fun p => p.id == id) = none :=
    List.find?_eq_none.mpr (fun p hp => by simpa using habs p hp)
  refine ⟨?_, ?_, rfl, rfl⟩
  · unfold updateStock updateStockList
    simp only
    calc st.products.map (fun p => if p.id == id then { p with stock := ns } else p)
        = st.products.map (fun p => p) :=
          List.map_congr_left (fun p hp => by rw [if_neg (by simpa using habs p hp)])
      _ = st.products := List.map_id _
  · unfold updateStock productNameFor
    rw [hfind]

/-- Witness for C10 at a concrete input. -/
theorem updateStock_missing_id_witness :
    (updateStock
        { products := [Product.mk ("1").toList ("Widget").toList ("W1").toList ("Tools").toList 3]
          modalProduct := none
          successMessage := none
          pendingClears := []
          now := 7 } (("2").toList) 15).products =
      [Product.mk ("1").toList ("Widget").toList ("W1").toList ("Tools").toList 3]
      ∧ (updateStock
          { products := [Product.mk ("1").toList ("Widget").toList ("W1").toList ("Tools").toList 3]
            modalProduct := none
            successMessage := none
            pendingClears := []
            now := 7 } (("2").toList) 15).successMessage =
        some (successMsg (("Product").toList) 15)
      ∧ (updateStock
          { products := [Product.mk ("1").toList ("Widget").toList ("W1").toList ("Tools").toList 3]
            modalProduct := none
            successMessage := none
            pendingClears := []
            now := 7 } (("2").toList) 15).pendingClears = [] ++ [7 + 3]
      ∧ (updateStock
          { products := [Product.mk ("1").toList ("Widget").toList ("W1").toList ("Tools").toList 3]
            modalProduct := none
            successMessage := none
            pendingClears := []
            now := 7 } (("2").toList) 15).modalProduct = none :=
  updateStock_missing_id
    { products := [Product.mk ("1").toList ("Widget").toList ("W1").toList ("Tools").toList 3]
      modalProduct := none
      successMessage := none
      pendingClears := []
      now := 7 } (("2").toList) 15 (by decide)

/-- Numeric value of a digit string, most significant digit first. -/
def digitsToNat (s : Str) : Nat :=
  s.foldl (fun acc c => acc * 10 + (c.toNat - 48)) 0

/-- JS Number(s) restricted to the integer shapes the form can see: the
empty string is 0, a digit string is its value, a minus sign followed by
digits is the negated value, anything else is NaN (none). -/
def jsNumberOfString (s : Str) : Option Int :=
  if s = [] then some 0
  else if s.all Char.isDigit then some (digitsToNat s)
  else if s.head? = some '-' ∧ s.drop 1 ≠ [] ∧ (s.drop 1).all Char.isDigit then
    some (-(digitsToNat (s.drop 1) : Int))
  else none

/-- Message of the required rule in the StockModal register call. -/
def msgRequired : Str := ("Stock is required").toList

/-- Message of the min rule in the StockModal register call. -/
def msgMin : Str := ("Stock must be 0 or more").toList

/-- Message of the digits-only rule in the StockModal register call. -/
def msgOnlyIntegers : Str := ("Only integers allowed").toList

/-- The three user-facing messages registered on the stock field. -/
def stockRuleMsgs : List Str := [msgRequired, msgMin, msgOnlyIntegers]

/-- The required rule: the value must be present (non-empty input). -/
def requiredOk (s : Str) : Bool := !s.isEmpty

/-- The min rule (value ≥ 0), under JS numeric comparison: a NaN input
compares false against the bound and so does not trip this rule. -/
def minRuleOk (s : Str) : Bool :=
  match jsNumberOfString s with
  | some n => decide (0 ≤ n)
  | none => true

/-- The digits-only rule from the register call, the anchored
one-or-more-digits match. -/
def digitsOnlyOk (s : Str) : Bool := !s.isEmpty && s.all Char.isDigit

/-- A submit is accepted only when all three rules pass. -/
def stockInputValid (s : Str) : Bool := requiredOk s && minRuleOk s && digitsOnlyOk s

/-- The value handed to onSave on an accepted submit. -/
def submitStock (s : Str) : Option Nat :=
  if stockInputValid s then (jsNumberOfString s).map Int.toNat else none

/-- C7: the three validation rules are independent with distinct
messages; input "-1" is rejected by both the min rule and the
digits-only rule, input "" is rejected by the required rule, and a
digit-only input passes all three rules and hands its numeric value to
the submit operation (in particular "15" submits 15). -/
theorem stockValidation (s : Str) (h1 : s ≠ []) (h2 : s.all Char.isDigit = true) :
    stockRuleMsgs.Nodup
      ∧ minRuleOk (("-1").toList) = false
      ∧ digitsOnlyOk (("-1").toList) = false
      ∧ requiredOk (("").toList) = false
      ∧ requiredOk s = true ∧ minRuleOk s = true ∧ digitsOnlyOk s = true
      ∧ submitStock s = some (digitsToNat s)
      ∧ submitStock (("15").toList) = some 15 := by
  have hnum : jsNumberOfString s = some ((digitsToNat s : Int)) := by
    unfold jsNumberOfString
    rw [if_neg h1, if_pos h2]
  have hreq : requiredOk s = true := by
    cases s with
    | nil => exact absurd rfl h1
    | cons c t => rfl
  have hmin : minRuleOk s = true := by
    unfold minRuleOk
    rw [hnum]
    simp
  have hdig : digitsOnlyOk s = true := by
    unfold digitsOnlyOk
    cases s with
    | nil => exact absurd rfl h1
    | cons c t => simp only [List.isEmpty_cons, Bool.not_false, Bool.true_and]; exact h2
  have hvalid : stockInputValid s = true := by
    unfold stockInputValid
    rw [hreq, hmin, hdig]
    rfl
  refine ⟨by decide, by decide, by decide, by decide, hreq, hmin, hdig, ?_, by decide⟩
  unfold submitStock
  rw [hvalid]
  simp only [if_true]
  rw [hnum, Option.map_some', Int.toNat_ofNat]

/-- Witness for C7 at the concrete digit input "15". -/
theorem stockValidation_witness :
    stockRuleMsgs.Nodup
      ∧ minRuleOk (("-1").toList) = false
      ∧ digitsOnlyOk (("-1").toList) = false
      ∧ requiredOk (("").toList) = false
      ∧ requiredOk (("15").toList) = true ∧ minRuleOk (("15").toList) = true
      ∧ digitsOnlyOk (("15").toList) = true
      ∧ submitStock (("15").toList) = some (digitsToNat (("15").toList))
      ∧ submitStock (("15").toList) = some 15 :=
  stockValidation (("15").toList) (by decide) (by decide)

/-- The navigable state touched by handleSearch: the URL query
parameters and the 1-based current page. -/
structure SearchState where
  params : List (Str × Str)
  currentPage : Nat

/-- handleSearch from home.tsx: a non-empty input value replaces the
query parameters with the single search key, an empty value clears
them; the current page is reset to 1. -/
def handleSearch (value : Str) (searchState : SearchState) : SearchState :=
  { params := if value = [] then [] else [(("search").toList, value)]
    currentPage := 1 }

/-- C8: every search change stores the text under the single "search"
key (the key is absent when the text is empty), resets the current page
to 1, and page 1 is always within the rendered page range. -/
theorem handleSearch_correct (value : Str) (st : SearchState) :
    (handleSearch value st).currentPage = 1
      ∧ (handleSearch value st).params.lookup (("search").toList) =
          (if value = [] then none else some value)
      ∧ (handleSearch value st).params.length ≤ 1
      ∧ ∀ len : Nat, (handleSearch value st).currentPage ≤ pageButtonsTotal (totalPages len) := by
  refine ⟨rfl, ?_, ?_, ?_⟩
  · unfold handleSearch
    by_cases h : value = []
    · rw [if_pos h, if_pos h]
      rfl
    · rw [if_neg h, if_neg h]
      simp [List.lookup]
  · unfold handleSearch
    by_cases h : value = [] <;> simp [h]
  · intro len
    have h1 : (handleSearch value st).currentPage = 1 := rfl
    rw [h1]
    unfold pageButtonsTotal
    split <;> omega

/-- getProductById from the product service: find the product whose id
equals the argument, none when there is no match. -/
def getProductById (products : List Product) (id : Str) : Option Product :=
  products.find? (fun p => p.id == id)

/-- C9: getProductById returns a product of the collection whose id
equals the argument whenever one exists, and none exactly when no
product has that id; it is a pure read and cannot fail. -/
theorem getProductById_correct (ps : List Product) (id : Str) :
    (∀ p, getProductById ps id = some p → p ∈ ps ∧ p.id = id)
      ∧ (getProductById ps id = none ↔ ∀ p ∈ ps, p.id ≠ id) := by
  constructor
  · intro p hp
    refine ⟨List.mem_of_find?_eq_some hp, ?_⟩
    have := List.find?_some hp
    simpa using this
  · unfold getProductById
    rw [List.find?_eq_none]
    constructor
    · intro h p hp
      simpa using h p hp
    · intro h p hp
      simpa using h p hp

/-- Witness for C9: on a one-product collection the lookup result does
carry the matching id. -/
theorem getProductById_correct_witness :
    Product.mk ("1").toList ("Widget").toList ("W1").toList ("Tools").toList 3
        ∈ [Product.mk ("1").toList ("Widget").toList ("W1").toList ("Tools").toList 3]
      ∧ (Product.mk ("1").toList ("Widget").toList ("W1").toList ("Tools").toList 3).id =
        ("1").toList :=
  (getProductById_correct
      [Product.mk ("1").toList ("Widget").toList ("W1").toList ("Tools").toList 3]
      (("1").toList)).1
    (Product.mk ("1").toList ("Widget").toList ("W1").toList ("Tools").toList 3) (by decide)

/-- The edit event yielding the latest message set at or before time T:
each successful edit at time t writes its success message; the write
with the greatest time at or before T is the visible one. -/
def lastEditLE (edits : List (Nat × Str)) (T : Nat) : Option (Nat × Str) :=
  edits.foldl (fun acc e =>
    if e.1 ≤ T then
      match acc with
      | none => some e
      | some a => if a.1 ≤ e.1 then some e else some a
    else acc) none

/-- The success message visible at time T under the code's setTimeout
pattern: every edit at time t schedules an uncancellable clear at t + 3,
and writes follow last-write-wins, so the visible message is the latest
edit's message unless some clear (from any edit) fires strictly after
that edit and at or before T. -/
def messageAt (edits : List (Nat × Str)) (T : Nat) : Option Str :=
  match lastEditLE edits T with
  | none => none
  | some te =>
    if edits.any (fun e => decide (te.1 < e.1 + 3) && decide (e.1 + 3 ≤ T)) then none
    else some te.2

/-- C4 counterexample: with a first edit at time 0 and a second at time
2, the second message is visible at time 2 but already cleared at time
3 by the first edit's timer — earlier than the second message's own
3-second lifetime (which would end at time 5). -/
theorem staleClear_counterexample :
    messageAt [(0, ("A").toList), (2, ("B").toList)] 2 = some (("B").toList)
      ∧ messageAt [(0, ("A").toList), (2, ("B").toList)] 3 = none
      ∧ 3 < 2 + 3 := by decide

/-- C4 amended: after a successful edit the success message contains the
product's name and the new stock value, and with no other edit pending
it is cleared exactly 3 seconds later; but timers are never cancelled,
so when a second edit lands before the first edit's timer fires, that
first timer clears the second message before its own 3 seconds elapse. -/
theorem successMessage_lifecycle (name : Str) (ns t t1 t2 T : Nat) (m m1 m2 : Str)
    (h1 : t1 < t2) (h2 : t2 < t1 + 3) (h3 : t1 + 3 ≤ T) (h4 : T < t2 + 3) :
    (∃ pre post, successMsg name ns = pre ++ name ++ post)
      ∧ (∃ pre post, successMsg name ns = pre ++ (Nat.repr ns).toList ++ post)
      ∧ (∀ S : Nat, messageAt [(t, m)] S =
          if S < t then none else if S < t + 3 then some m else none)
      ∧ messageAt [(t1, m1), (t2, m2)] T = none := by
  refine ⟨?_, ?_, ?_, ?_⟩
  · refine ⟨("Stock for \"").toList, ("\" updated to ").toList ++ (Nat.repr ns).toList, ?_⟩
    unfold successMsg
    simp [List.append_assoc]
  · refine ⟨("Stock for \"").toList ++ name ++ ("\" updated to ").toList, [], ?_⟩
    unfold successMsg
    simp [List.append_assoc]
  · intro S
    have hfold : lastEditLE [(t, m)] S = if t ≤ S then some (t, m) else none := rfl
    unfold messageAt
    rw [hfold]
    by_cases hS : t ≤ S
    · rw [if_pos hS]
      dsimp only
      simp only [List.any_cons, List.any_nil, Bool.or_false]
      by_cases hS3 : t + 3 ≤ S
      · rw [if_pos (by simp only [Bool.and_eq_true, decide_eq_true_eq]; omega),
          if_neg (show ¬ S < t by omega), if_neg (show ¬ S < t + 3 by omega)]
      · rw [if_neg (by simp only [Bool.and_eq_true, decide_eq_true_eq]; omega),
          if_neg (show ¬ S < t by omega), if_pos (show S < t + 3 by omega)]
    · rw [if_neg hS, if_pos (show S < t by omega)]
  · have hfold2 : lastEditLE [(t1, m1), (t2, m2)] T = some (t2, m2) := by
      unfold lastEditLE
      simp only [List.foldl]
      rw [if_pos (show t2 ≤ T by omega), if_pos (show t1 ≤ T by omega)]
      dsimp only
      rw [if_pos (show t1 ≤ t2 by omega)]
    unfold messageAt
    rw [hfold2]
    dsimp only
    simp only [List.any_cons, List.any_nil, Bool.or_false]
    rw [if_pos (by
      simp only [Bool.or_eq_true, Bool.and_eq_true, decide_eq_true_eq]
      omega)]

/-- Witness for C4 at the concrete timeline of the counterexample. -/
theorem successMessage_lifecycle_witness :
    (∃ pre post, successMsg (("Widget").toList) 20 = pre ++ ("Widget").toList ++ post)
      ∧ (∃ pre post, successMsg (("Widget").toList) 20 = pre ++ (Nat.repr 20).toList ++ post)
      ∧ (∀ S : Nat, messageAt [(0, ("A").toList)] S =
          if S < 0 then none else if S < 0 + 3 then some (("A").toList) else none)
      ∧ messageAt [(0, ("A").toList), (2, ("B").toList)] 3 = none :=
  successMessage_lifecycle (("Widget").toList) 20 0 0 2 3 (("A").toList) (("A").toList)
    (("B").toList) (by decide) (by decide) (by decide) (by decide)
